import Mathlib

/-!
# SenwichScene viewer core — a shallow embedding

This file embeds the camera/orbit core of the SenwichScene splat viewer in
Lean 4 and proves properties of it.

Sources embedded (real-number model of the JS double arithmetic):
* `orbitMath.ts` — `setOrbitFromVector` / `setVectorFromOrbit`;
* `SplatViewer.ts` (free-orbit variant): the pole wrap-around loop and the
  damping step of `updateCamera`, `rotateCamera`, `updateViewCameras` in
  single-view mode, `requestRender`, the render loop, `resetView`,
  the pointer handlers and the dolly branch of `handleWheel`;
* the hard-clamp variant of the viewer (quad views, axis lock): its
  `handlePointerDown/Move/Up/Leave`, `handleWheel` (dolly branch),
  `updateCamera` and `updateViewCameras`;
* the asset-load token logic of `loadFromUrl` / `loadPlyFile` /
  `loadObjFile` (a discrete state machine over renderable ids).

`Math.atan2 y x` is modelled by `Complex.arg ⟨x, y⟩` (same convention:
range `(-π, π]`, value `0` at the origin).  `THREE.Quaternion`,
`THREE.Vector3` and `THREE.MathUtils.clamp` operations used by the code are
translated directly.  The quaternion produced by the renderer-library
`camera.lookAt` is kept as a parameter `lookQ` of the state transformers:
the library guarantees it is a unit quaternion and the viewer code treats
it as opaque.
-/

noncomputable section

open Real

open scoped Classical

/-- `THREE.MathUtils.clamp(value, min, max) = Math.max(min, Math.min(max, value))`. -/
def mclamp (value lo hi : ℝ) : ℝ := max lo (min hi value)

/-- `Math.atan2(y, x)`: the argument of the complex number `x + y·i`,
in `(-π, π]`, `0` at the origin — the JS convention. -/
def atan2 (y x : ℝ) : ℝ := Complex.arg ⟨x, y⟩

/-- A `THREE.Vector3` over exact reals. -/
structure Vec3 where
  x : ℝ
  y : ℝ
  z : ℝ

instance : Add Vec3 := ⟨fun a b => ⟨a.x + b.x, a.y + b.y, a.z + b.z⟩⟩

instance : Sub Vec3 := ⟨fun a b => ⟨a.x - b.x, a.y - b.y, a.z - b.z⟩⟩

instance : Neg Vec3 := ⟨fun a => ⟨-a.x, -a.y, -a.z⟩⟩

@[simp] theorem Vec3.add_def (a b : Vec3) :
    a + b = ⟨a.x + b.x, a.y + b.y, a.z + b.z⟩ := rfl

@[simp] theorem Vec3.sub_def (a b : Vec3) :
    a - b = ⟨a.x - b.x, a.y - b.y, a.z - b.z⟩ := rfl

@[simp] theorem Vec3.neg_def (a : Vec3) : -a = ⟨-a.x, -a.y, -a.z⟩ := rfl

/-- `Vector3.multiplyScalar`. -/
def Vec3.smul (s : ℝ) (v : Vec3) : Vec3 := ⟨s * v.x, s * v.y, s * v.z⟩

/-- `Vector3.length()`. -/
def Vec3.len (v : Vec3) : ℝ := Real.sqrt (v.x ^ 2 + v.y ^ 2 + v.z ^ 2)

/-- `Vector3.lengthSq()`. -/
def Vec3.lenSq (v : Vec3) : ℝ := v.x ^ 2 + v.y ^ 2 + v.z ^ 2

/-- `Vector3.distanceToSquared`. -/
def Vec3.distSq (a b : Vec3) : ℝ := (a - b).lenSq

/-- `Vector3.distanceTo`. -/
def Vec3.dist (a b : Vec3) : ℝ := (a - b).len

/-- `Vector3.cross`. -/
def Vec3.cross (a b : Vec3) : Vec3 :=
  ⟨a.y * b.z - a.z * b.y, a.z * b.x - a.x * b.z, a.x * b.y - a.y * b.x⟩

/-- `Vector3.normalize()`: `divideScalar(length || 1)`, so the zero vector
is left unchanged. -/
def Vec3.normalize (v : Vec3) : Vec3 :=
  if v.len = 0 then v else Vec3.smul (1 / v.len) v

/-- A `THREE.Spherical`: radius, azimuth `theta`, polar angle `phi`. -/
structure Spherical where
  radius : ℝ
  theta : ℝ
  phi : ℝ

/-- `THREE.Spherical.makeSafe()`: clamps `phi` to `[EPS, π - EPS]`,
`EPS = 0.000001`. -/
def Spherical.makeSafe (s : Spherical) : Spherical :=
  { s with phi := max 0.000001 (min (Real.pi - 0.000001) s.phi) }

/-- `orbitMath.ts` — `setOrbitFromVector`: spherical coordinates of an
offset vector, with the zero vector mapped to `{0, 0, π/2}` and the
`acos` argument clamped to `[-1, 1]`. -/
def setOrbitFromVector (v : Vec3) : Spherical :=
  let r := v.len
  if r = 0 then ⟨r, 0, Real.pi / 2⟩
  else ⟨r, atan2 v.y v.x, Real.arccos (mclamp (v.z / r) (-1) 1)⟩

/-- `orbitMath.ts` — `setVectorFromOrbit`: the offset vector of a spherical
state. -/
def setVectorFromOrbit (s : Spherical) : Vec3 :=
  let sinPhiRadius := Real.sin s.phi * s.radius
  ⟨sinPhiRadius * Real.cos s.theta,
   sinPhiRadius * Real.sin s.theta,
   Real.cos s.phi * s.radius⟩

/-! ## Basic facts about the orbit conversions -/

theorem setVectorFromOrbit_len (s : Spherical) :
    (setVectorFromOrbit s).len = |s.radius| := by
  unfold setVectorFromOrbit Vec3.len
  have hθ := Real.sin_sq_add_cos_sq s.theta
  have hφ := Real.sin_sq_add_cos_sq s.phi
  have h : (Real.sin s.phi * s.radius * Real.cos s.theta) ^ 2 +
      (Real.sin s.phi * s.radius * Real.sin s.theta) ^ 2 +
      (Real.cos s.phi * s.radius) ^ 2 = s.radius ^ 2 := by
    calc (Real.sin s.phi * s.radius * Real.cos s.theta) ^ 2 +
        (Real.sin s.phi * s.radius * Real.sin s.theta) ^ 2 +
        (Real.cos s.phi * s.radius) ^ 2
        = s.radius ^ 2 * (Real.sin s.phi ^ 2 *
            (Real.sin s.theta ^ 2 + Real.cos s.theta ^ 2) +
            Real.cos s.phi ^ 2) := by ring
      _ = s.radius ^ 2 * (Real.sin s.phi ^ 2 + Real.cos s.phi ^ 2) := by
            rw [hθ]; ring
      _ = s.radius ^ 2 := by rw [hφ]; ring
  rw [h, Real.sqrt_sq_eq_abs]

theorem abs_z_le_len (v : Vec3) : |v.z| ≤ v.len := by
  unfold Vec3.len
  have h : |v.z| = Real.sqrt (v.z ^ 2) := (Real.sqrt_sq_eq_abs v.z).symm
  rw [h]
  exact Real.sqrt_le_sqrt (by nlinarith [sq_nonneg v.x, sq_nonneg v.y])

theorem len_nonneg (v : Vec3) : 0 ≤ v.len := Real.sqrt_nonneg _

/-- The clamp in `setOrbitFromVector` is the identity whenever the vector is
nonzero, because `|z| ≤ ‖v‖`. -/
theorem mclamp_z_div_len (v : Vec3) (hv : v.len ≠ 0) :
    mclamp (v.z / v.len) (-1) 1 = v.z / v.len := by
  have hpos : 0 < v.len := lt_of_le_of_ne (len_nonneg v) (Ne.symm hv)
  have hz := abs_z_le_len v
  have h1 : v.z / v.len ≤ 1 := by
    rw [div_le_one hpos]; exact le_trans (le_abs_self _) hz
  have h2 : -1 ≤ v.z / v.len := by
    rw [le_div_iff hpos]
    have := neg_abs_le v.z
    linarith [neg_le_neg hz]
  unfold mclamp
  rw [min_eq_right h1, max_eq_right h2]

theorem atan2_amul (a θ : ℝ) (ha : 0 < a) (hθ : θ ∈ Set.Ioc (-Real.pi) Real.pi) :
    atan2 (a * Real.sin θ) (a * Real.cos θ) = θ := by
  unfold atan2
  have h : (⟨a * Real.cos θ, a * Real.sin θ⟩ : ℂ) =
      (a : ℂ) * (Complex.cos θ + Complex.sin θ * Complex.I) := by
    rw [← Complex.ofReal_cos, ← Complex.ofReal_sin]
    apply Complex.ext <;> simp [Complex.cos_ofReal_re, Complex.sin_ofReal_re]
  rw [h]
  exact Complex.arg_mul_cos_add_sin_mul_I ha hθ

theorem atan2_mem_Ioc (y x : ℝ) : atan2 y x ∈ Set.Ioc (-Real.pi) Real.pi :=
  Complex.arg_mem_Ioc _

theorem cos_atan2 (y x : ℝ) (h : ¬(x = 0 ∧ y = 0)) :
    Real.cos (atan2 y x) = x / Real.sqrt (x ^ 2 + y ^ 2) := by
  unfold atan2
  have hz : (⟨x, y⟩ : ℂ) ≠ 0 := by
    intro hc
    exact h ⟨congrArg Complex.re hc, congrArg Complex.im hc⟩
  rw [Complex.cos_arg hz, Complex.abs_apply, Complex.normSq_mk]
  ring_nf

theorem sin_atan2 (y x : ℝ) :
    Real.sin (atan2 y x) = y / Real.sqrt (x ^ 2 + y ^ 2) := by
  unfold atan2
  rw [Complex.sin_arg, Complex.abs_apply, Complex.normSq_mk]
  ring_nf

/-- Orbit → vector → orbit: exact recovery when the radius is positive, the
polar angle is strictly between the poles, and the azimuth is in the
principal range `(-π, π]` of `atan2`. -/
theorem roundtrip_orbit_vec (o : Spherical) (hr : 0 < o.radius)
    (hphi : o.phi ∈ Set.Ioo 0 Real.pi)
    (hth : o.theta ∈ Set.Ioc (-Real.pi) Real.pi) :
    setOrbitFromVector (setVectorFromOrbit o) = o := by
  obtain ⟨r, θ, φ⟩ := o
  simp only at hr hphi hth
  have hsin : 0 < Real.sin φ := Real.sin_pos_of_pos_of_lt_pi hphi.1 hphi.2
  have hlen : (setVectorFromOrbit ⟨r, θ, φ⟩).len = r := by
    rw [setVectorFromOrbit_len]; exact abs_of_pos hr
  have hlnz : (setVectorFromOrbit ⟨r, θ, φ⟩).len ≠ 0 := by
    rw [hlen]; exact ne_of_gt hr
  simp only [setOrbitFromVector, setVectorFromOrbit] at hlen hlnz ⊢
  rw [if_neg hlnz, Spherical.mk.injEq]
  refine ⟨hlen, ?_, ?_⟩
  · show atan2 (Real.sin φ * r * Real.sin θ) (Real.sin φ * r * Real.cos θ) = θ
    have h1 : Real.sin φ * r * Real.sin θ = Real.sin φ * r * Real.sin θ := rfl
    exact atan2_amul (Real.sin φ * r) θ (mul_pos hsin hr) hth
  · rw [hlen]
    have hz : Real.cos φ * r / r = Real.cos φ := by
      field_simp
    rw [hz]
    have hc : mclamp (Real.cos φ) (-1) 1 = Real.cos φ := by
      unfold mclamp
      rw [min_eq_right (Real.cos_le_one φ), max_eq_right (Real.neg_one_le_cos φ)]
    rw [hc]
    exact Real.arccos_cos hphi.1.le hphi.2.le

/-- Vector → orbit → vector: exact recovery for every nonzero vector whose
derived polar angle stays strictly away from the poles. -/
theorem roundtrip_vec_orbit (v : Vec3) (hv : v.len ≠ 0)
    (hphi : (setOrbitFromVector v).phi ∈
      Set.Ioo 0.000001 (Real.pi - 0.000001)) :
    setVectorFromOrbit (setOrbitFromVector v) = v := by
  obtain ⟨x, y, z⟩ := v
  have hrpos : 0 < (Vec3.mk x y z).len :=
    lt_of_le_of_ne (len_nonneg _) (Ne.symm hv)
  have hxy : ¬(x = 0 ∧ y = 0) := by
    rintro ⟨hx, hy⟩
    have hlen : (Vec3.mk x y z).len = |z| := by
      unfold Vec3.len
      rw [hx, hy]
      simp [Real.sqrt_sq_eq_abs]
    have hz : z ≠ 0 := by
      intro h0
      exact hv (by rw [hlen, h0, abs_zero])
    have hdiv : z / (Vec3.mk x y z).len = 1 ∨ z / (Vec3.mk x y z).len = -1 := by
      rw [hlen]
      rcases lt_or_gt_of_ne hz with h | h
      · right; rw [abs_of_neg h]; field_simp
      · left; rw [abs_of_pos h]; field_simp
    have hval : (setOrbitFromVector ⟨x, y, z⟩).phi = 0 ∨
        (setOrbitFromVector ⟨x, y, z⟩).phi = Real.pi := by
      simp only [setOrbitFromVector]
      rw [if_neg hv, mclamp_z_div_len _ hv]
      rcases hdiv with h | h
      · left; rw [h, Real.arccos_one]
      · right; rw [h, Real.arccos_neg_one]
    rcases hval with h | h
    · rw [h] at hphi
      have := hphi.1
      norm_num at this
    · rw [h] at hphi
      have := hphi.2
      linarith [this]
  have hs : 0 < x ^ 2 + y ^ 2 := by
    rcases not_and_or.mp hxy with h | h
    · have := pow_two_pos_of_ne_zero h
      nlinarith [sq_nonneg y]
    · have := pow_two_pos_of_ne_zero h
      nlinarith [sq_nonneg x]
  have hsq : 0 < Real.sqrt (x ^ 2 + y ^ 2) := Real.sqrt_pos.mpr hs
  have hr2 : (Vec3.mk x y z).len ^ 2 = x ^ 2 + y ^ 2 + z ^ 2 :=
    Real.sq_sqrt (by positivity)
  have hzle : -1 ≤ z / (Vec3.mk x y z).len ∧ z / (Vec3.mk x y z).len ≤ 1 := by
    constructor
    · rw [le_div_iff₀ hrpos]
      have := abs_z_le_len (Vec3.mk x y z)
      have h2 := neg_abs_le z
      linarith [neg_le_neg this]
    · rw [div_le_one hrpos]
      exact le_trans (le_abs_self z) (abs_z_le_len (Vec3.mk x y z))
  have hkey : Real.sqrt (1 - (z / (Vec3.mk x y z).len) ^ 2) =
      Real.sqrt (x ^ 2 + y ^ 2) / (Vec3.mk x y z).len := by
    have h1 : 1 - (z / (Vec3.mk x y z).len) ^ 2 =
        (x ^ 2 + y ^ 2) / (Vec3.mk x y z).len ^ 2 := by
      rw [div_pow]
      field_simp
      linarith [hr2]
    rw [h1, Real.sqrt_div (by positivity), Real.sqrt_sq hrpos.le]
  simp only [setOrbitFromVector, setVectorFromOrbit]
  rw [if_neg hv]
  simp only
  rw [mclamp_z_div_len _ hv, Real.sin_arccos, Real.cos_arccos hzle.1 hzle.2,
    cos_atan2 y x hxy, sin_atan2 y x, hkey, Vec3.mk.injEq]
  refine ⟨?_, ?_, ?_⟩
  · field_simp
  · field_simp
  · field_simp

theorem mclamp_mem_Icc (x lo hi : ℝ) (h : lo ≤ hi) :
    mclamp x lo hi ∈ Set.Icc lo hi := by
  unfold mclamp
  constructor
  · exact le_max_left _ _
  · exact max_le h (min_le_left _ _)

theorem zeroVec_len : (Vec3.mk 0 0 0).len = 0 := by
  unfold Vec3.len; norm_num

theorem unitX_len : (Vec3.mk 1 0 0).len = 1 := by
  unfold Vec3.len; norm_num

/-- C2 (amended).  Orbit-math round trip: for every spherical state `o` with
`radius > 0`, polar angle strictly inside `(0, π)` **and azimuth in the
principal branch `(-π, π]` of `atan2`**, `setOrbitFromVector ∘
setVectorFromOrbit` returns `o` exactly; and for every offset vector of
nonzero length whose derived polar angle is strictly inside
`(ε, π − ε)`, `setVectorFromOrbit ∘ setOrbitFromVector` returns the vector
exactly.  (The real-number model makes "within floating tolerance" exact
equality.  The azimuth restriction is forced: `atan2` cannot return an
azimuth outside `(-π, π]`, see the counterexample.) -/
theorem claim_C2_orbit_roundtrip :
    (∀ o : Spherical, 0 < o.radius → o.phi ∈ Set.Ioo 0 Real.pi →
      o.theta ∈ Set.Ioc (-Real.pi) Real.pi →
      setOrbitFromVector (setVectorFromOrbit o) = o) ∧
    (∀ v : Vec3, v.len ≠ 0 →
      (setOrbitFromVector v).phi ∈ Set.Ioo 0.000001 (Real.pi - 0.000001) →
      setVectorFromOrbit (setOrbitFromVector v) = v) :=
  ⟨roundtrip_orbit_vec, roundtrip_vec_orbit⟩

/-- C2 counterexample to the claim as stated: the spherical state
`{radius 1, theta 2π, phi π/2}` satisfies the claim's hypotheses
(`radius > 0`, `phi ∈ (0, π)`), yet the round trip returns azimuth `0`,
not `2π` — `atan2` lands in `(-π, π]`. -/
theorem claim_C2_counterexample :
    0 < (Spherical.mk 1 (2 * Real.pi) (Real.pi / 2)).radius ∧
    (Spherical.mk 1 (2 * Real.pi) (Real.pi / 2)).phi ∈ Set.Ioo 0 Real.pi ∧
    setOrbitFromVector
        (setVectorFromOrbit ⟨1, 2 * Real.pi, Real.pi / 2⟩) ≠
      ⟨1, 2 * Real.pi, Real.pi / 2⟩ := by
  have hpi := Real.pi_pos
  refine ⟨one_pos, ⟨by linarith, by linarith⟩, ?_⟩
  have hv : setVectorFromOrbit ⟨1, 2 * Real.pi, Real.pi / 2⟩ =
      ⟨1, 0, 0⟩ := by
    simp only [setVectorFromOrbit]
    rw [Vec3.mk.injEq]
    norm_num [Real.sin_pi_div_two, Real.cos_two_pi, Real.sin_two_pi,
      Real.cos_pi_div_two]
  rw [hv]
  intro h
  have hth := congrArg Spherical.theta h
  have hnz : (Vec3.mk 1 0 0).len ≠ 0 := by rw [unitX_len]; norm_num
  simp only [setOrbitFromVector] at hth
  rw [if_neg hnz] at hth
  simp only at hth
  have hone : (⟨1, 0⟩ : ℂ) = 1 := by apply Complex.ext <;> simp
  unfold atan2 at hth
  rw [hone, Complex.arg_one] at hth
  have : Real.pi = 0 := by linarith [hth]
  exact Real.pi_ne_zero this

/-- C2 witness: the amended round trip evaluated at
`{radius 1, theta 0, phi π/2}` and at the unit x-vector. -/
theorem claim_C2_orbit_roundtrip_witness :
    setOrbitFromVector (setVectorFromOrbit ⟨1, 0, Real.pi / 2⟩) =
      ⟨1, 0, Real.pi / 2⟩ ∧
    setVectorFromOrbit (setOrbitFromVector ⟨1, 0, 0⟩) = ⟨1, 0, 0⟩ := by
  have hpi := Real.pi_gt_three
  constructor
  · exact claim_C2_orbit_roundtrip.1 ⟨1, 0, Real.pi / 2⟩ one_pos
      ⟨by linarith, by linarith⟩ ⟨by linarith, by linarith⟩
  · have hnz : (Vec3.mk 1 0 0).len ≠ 0 := by rw [unitX_len]; norm_num
    have hphi : (setOrbitFromVector ⟨1, 0, 0⟩).phi = Real.pi / 2 := by
      simp only [setOrbitFromVector]
      rw [if_neg hnz]
      simp only
      rw [unitX_len]
      norm_num [mclamp, Real.arccos_zero]
    exact claim_C2_orbit_roundtrip.2 ⟨1, 0, 0⟩ hnz
      (by rw [hphi]; constructor <;> linarith)

/-- C3.  Degenerate safety of `setOrbitFromVector`: the zero vector maps to
exactly `{radius 0, theta 0, phi π/2}`, and for every input vector the
`acos` argument is clamped into `[-1, 1]` and all three output components
lie in well-defined real ranges (the real-number rendering of "never
NaN"): `radius = ‖v‖ ≥ 0`, `theta ∈ [-π, π]`, `phi ∈ [0, π]`. -/
theorem claim_C3_degenerate_safety :
    setOrbitFromVector ⟨0, 0, 0⟩ = ⟨0, 0, Real.pi / 2⟩ ∧
    ∀ v : Vec3,
      mclamp (v.z / v.len) (-1) 1 ∈ Set.Icc (-1 : ℝ) 1 ∧
      (setOrbitFromVector v).radius = v.len ∧
      0 ≤ (setOrbitFromVector v).radius ∧
      (setOrbitFromVector v).theta ∈ Set.Icc (-Real.pi) Real.pi ∧
      (setOrbitFromVector v).phi ∈ Set.Icc 0 Real.pi := by
  have hpi := Real.pi_pos
  constructor
  · simp only [setOrbitFromVector]
    rw [if_pos zeroVec_len, zeroVec_len]
  · intro v
    refine ⟨mclamp_mem_Icc _ _ _ (by norm_num), ?_, ?_, ?_, ?_⟩
    · simp only [setOrbitFromVector]
      by_cases h : v.len = 0
      · rw [if_pos h]
      · rw [if_neg h]
    · simp only [setOrbitFromVector]
      by_cases h : v.len = 0
      · rw [if_pos h]; exact len_nonneg v
      · rw [if_neg h]; exact len_nonneg v
    · simp only [setOrbitFromVector]
      by_cases h : v.len = 0
      · rw [if_pos h]
        exact ⟨by linarith, by linarith⟩
      · rw [if_neg h]
        have := atan2_mem_Ioc v.y v.x
        exact ⟨this.1.le, this.2⟩
    · simp only [setOrbitFromVector]
      by_cases h : v.len = 0
      · rw [if_pos h]
        exact ⟨by linarith, by linarith⟩
      · rw [if_neg h]
        exact ⟨Real.arccos_nonneg _, Real.arccos_le_pi _⟩

/-! ## Viewer constants (`SplatViewer.ts`, identical in all variants) -/

def rotateSpeed : ℝ := 0.003

def dampingFactor : ℝ := 0.15

def minDistance : ℝ := 0.3

def maxDistance : ℝ := 50

def minPolarAngle : ℝ := 0.02

def maxPolarAngle : ℝ := Real.pi - 0.02

def axisLockThreshold : ℝ := 1.5

theorem minPolar_lt_maxPolar : minPolarAngle < maxPolarAngle := by
  unfold minPolarAngle maxPolarAngle
  linarith [Real.pi_gt_three]

/-! ## The pole wrap-around loop of `updateCamera` (free-orbit variant)

```
while (phi < minPolarAngle || phi > maxPolarAngle) {
  if (phi < minPolarAngle) { phi = 2*minPolarAngle - phi; theta += PI }
  if (phi > maxPolarAngle) { phi = 2*maxPolarAngle - phi; theta += PI }
}
```
One loop iteration is `wrapStep` on the pair `(phi, theta)`; the loop is
`wrapPoles`, whose termination is proved by the decreasing pole defect. -/

/-- One iteration of the pole wrap-around `while` body: reflect `phi` at a
violated bound and add `π` to `theta` (both `if`s run in sequence). -/
def wrapStep (p : ℝ × ℝ) : ℝ × ℝ :=
  let p1 := if p.1 < minPolarAngle
    then (2 * minPolarAngle - p.1, p.2 + Real.pi) else p
  if maxPolarAngle < p1.1
    then (2 * maxPolarAngle - p1.1, p1.2 + Real.pi) else p1

/-- How far `phi` sits outside the band `[minPolarAngle, maxPolarAngle]`. -/
def poleDefect (phi : ℝ) : ℝ :=
  max (minPolarAngle - phi) (phi - maxPolarAngle)

theorem poleDefect_pos {p : ℝ × ℝ}
    (h : p.1 < minPolarAngle ∨ maxPolarAngle < p.1) : 0 < poleDefect p.1 := by
  unfold poleDefect
  rcases h with h | h
  · exact lt_max_of_lt_left (by linarith)
  · exact lt_max_of_lt_right (by linarith)

/-- Each loop iteration from outside the band shrinks the pole defect by at
least the band width `π - 0.04`. -/
theorem poleDefect_wrapStep (p : ℝ × ℝ)
    (h : p.1 < minPolarAngle ∨ maxPolarAngle < p.1) :
    poleDefect (wrapStep p).1 ≤ max 0 (poleDefect p.1 - (Real.pi - 0.04)) := by
  have hpi := Real.pi_gt_three
  obtain ⟨φ, θ⟩ := p
  unfold wrapStep poleDefect minPolarAngle maxPolarAngle at *
  simp only at h ⊢
  by_cases h1 : φ < 0.02
  · have hD : max (0.02 - φ) (φ - (Real.pi - 0.02)) = 0.02 - φ :=
      max_eq_left (by linarith)
    rw [if_pos h1]
    by_cases h2 : Real.pi - 0.02 < 2 * 0.02 - φ
    · rw [if_pos h2]
      simp only
      rw [hD]
      apply max_le
      · rcases le_or_lt (0.02 - φ - (Real.pi - 0.04)) 0 with hc | hc
        · exact le_trans (by linarith) (le_max_left _ _)
        · exact le_trans (by linarith) (le_max_right _ _)
      · exact le_trans (by linarith) (le_max_left _ _)
    · rw [if_neg h2]
      simp only
      rw [hD]
      apply max_le
      · exact le_trans (by linarith) (le_max_left _ _)
      · exact le_trans (by linarith) (le_max_left _ _)
  · have h3 : Real.pi - 0.02 < φ := by
      rcases h with h | h
      · exact absurd h h1
      · exact h
    have hD : max (0.02 - φ) (φ - (Real.pi - 0.02)) = φ - (Real.pi - 0.02) :=
      max_eq_right (by linarith)
    rw [if_neg h1, if_pos h3]
    simp only
    rw [hD]
    apply max_le
    · rcases le_or_lt (φ - (Real.pi - 0.02) - (Real.pi - 0.04)) 0 with hc | hc
      · exact le_trans (by linarith) (le_max_left _ _)
      · exact le_trans (by linarith) (le_max_right _ _)
    · exact le_trans (by linarith) (le_max_left _ _)

theorem ceil_defect_lt {x d : ℝ} (hd : 0 < d)
    (hx : x ≤ max 0 (d - (Real.pi - 0.04))) :
    Nat.ceil x < Nat.ceil d := by
  have hpi := Real.pi_gt_three
  have hdpos : 0 < Nat.ceil d := Nat.ceil_pos.mpr hd
  by_cases hx0 : x ≤ 0
  · rw [Nat.ceil_eq_zero.mpr hx0]
    exact hdpos
  · push_neg at hx0
    have hmax : (0:ℝ) < max 0 (d - (Real.pi - 0.04)) := lt_of_lt_of_le hx0 hx
    have hdw : 0 < d - (Real.pi - 0.04) := by
      rcases max_cases (0:ℝ) (d - (Real.pi - 0.04)) with ⟨he, _⟩ | ⟨he, _⟩
      · rw [he] at hmax; exact absurd hmax (lt_irrefl 0)
      · rw [he] at hmax; exact hmax
    have hxd : x ≤ d - (Real.pi - 0.04) := by
      rcases max_cases (0:ℝ) (d - (Real.pi - 0.04)) with ⟨he, _⟩ | ⟨he, _⟩
      · rw [he] at hx; exact absurd (lt_of_lt_of_le hx0 hx) (lt_irrefl 0)
      · rw [he] at hx; exact hx
    rw [Nat.lt_ceil]
    have h1 : (Nat.ceil x : ℝ) < x + 1 := Nat.ceil_lt_add_one hx0.le
    linarith

/-- The pole wrap-around `while` loop itself: iterate `wrapStep` until
`phi ∈ [minPolarAngle, maxPolarAngle]`.  Termination: each iteration
shrinks the pole defect by the band width `π - 0.04 > 1`. -/
def wrapPoles (p : ℝ × ℝ) : ℝ × ℝ :=
  if h : p.1 < minPolarAngle ∨ maxPolarAngle < p.1 then wrapPoles (wrapStep p)
  else p
termination_by Nat.ceil (poleDefect p.1)
decreasing_by
  exact ceil_defect_lt (poleDefect_pos h) (poleDefect_wrapStep p h)

theorem wrapPoles_spec (p : ℝ × ℝ) :
    (minPolarAngle ≤ (wrapPoles p).1 ∧ (wrapPoles p).1 ≤ maxPolarAngle) ∧
    ∃ n, wrapPoles p = wrapStep^[n] p := by
  induction p using wrapPoles.induct with
  | case1 p h ih =>
    rw [wrapPoles, dif_pos h]
    obtain ⟨n, hn⟩ := ih.2
    exact ⟨ih.1, n + 1, by rw [hn, Function.iterate_succ_apply]⟩
  | case2 p h =>
    push_neg at h
    rw [wrapPoles, dif_neg (by push_neg; exact h)]
    exact ⟨⟨h.1, h.2⟩, 0, rfl⟩

theorem wrapPoles_id (p : ℝ × ℝ) (h1 : minPolarAngle ≤ p.1)
    (h2 : p.1 ≤ maxPolarAngle) : wrapPoles p = p := by
  rw [wrapPoles, dif_neg]
  push_neg
  exact ⟨h1, h2⟩

/-- C9.  Pole wrap-around termination and postcondition: for every (finite,
real) goal polar angle and azimuth, the reflection loop `wrapPoles` at the
start of `updateCamera` terminates — its value is reached by finitely many
iterations of the loop body `wrapStep`, each of which replaces `phi` by its
mirror about the violated bound and adds `π` to `theta` — and on exit the
polar angle lies in `[minPolarAngle, maxPolarAngle]`. -/
theorem claim_C9_pole_wrap_terminates :
    ∀ phi theta : ℝ,
      (wrapPoles (phi, theta)).1 ∈ Set.Icc minPolarAngle maxPolarAngle ∧
      ∃ n, wrapPoles (phi, theta) = wrapStep^[n] (phi, theta) :=
  fun phi theta =>
    ⟨⟨(wrapPoles_spec (phi, theta)).1.1, (wrapPoles_spec (phi, theta)).1.2⟩,
     (wrapPoles_spec (phi, theta)).2⟩

/-! ## Shared gesture / camera data types -/

/-- The `AxisLock` values `"horizontal" | "vertical"`; the TS `null` is
`Option.none`. -/
inductive AxisLock where
  | horizontal
  | vertical
deriving DecidableEq

/-- The `pointerState` record of `SplatViewer`. -/
structure PointerState where
  isDragging : Bool
  lastX : ℝ
  lastY : ℝ
  lastTime : ℝ
  axisLock : Option AxisLock

/-- A `THREE.Quaternion` `(x, y, z, w)`. -/
structure Quat where
  x : ℝ
  y : ℝ
  z : ℝ
  w : ℝ

/-- `THREE.Quaternion.dot`. -/
def Quat.dot (a b : Quat) : ℝ := a.x * b.x + a.y * b.y + a.z * b.z + a.w * b.w

def Quat.normSq (q : Quat) : ℝ := q.x ^ 2 + q.y ^ 2 + q.z ^ 2 + q.w ^ 2

/-- `THREE.Quaternion.setFromAxisAngle` (the axis is assumed normalized). -/
def Quat.fromAxisAngle (axis : Vec3) (angle : ℝ) : Quat :=
  ⟨axis.x * Real.sin (angle / 2), axis.y * Real.sin (angle / 2),
   axis.z * Real.sin (angle / 2), Real.cos (angle / 2)⟩

/-- `THREE.Quaternion.multiplyQuaternions(a, b)` (Hamilton product). -/
def Quat.mul (a b : Quat) : Quat :=
  ⟨a.x * b.w + a.w * b.x + a.y * b.z - a.z * b.y,
   a.y * b.w + a.w * b.y + a.z * b.x - a.x * b.z,
   a.z * b.w + a.w * b.z + a.x * b.y - a.y * b.x,
   a.w * b.w - a.x * b.x - a.y * b.y - a.z * b.z⟩

/-- `THREE.Vector3.applyQuaternion`:
`t = 2 (q.xyz × v); v' = v + q.w t + q.xyz × t`. -/
def Vec3.applyQuaternion (v : Vec3) (q : Quat) : Vec3 :=
  let qv : Vec3 := ⟨q.x, q.y, q.z⟩
  let t := Vec3.smul 2 (qv.cross v)
  v + Vec3.smul q.w t + qv.cross t

/-- One viewport of the compositor: fixed azimuth offset and screen roll,
plus the camera pose recomputed each frame.  (The fractional screen rect
does not influence camera state and is omitted.) -/
structure ViewCam where
  thetaOffset : ℝ
  screenRotation : ℝ
  pos : Vec3
  up : Vec3
  quat : Quat

/-- The four quad views, keyed by screen position as in `setupQuadViews`. -/
structure Views4 where
  tl : ViewCam
  tr : ViewCam
  bl : ViewCam
  br : ViewCam

/-- `setupQuadViews` of the hard-clamp variant: 北 top-left `+π/2` roll
`-π/4`, 东 top-right `0` roll `π/4` (the primary), 西 bottom-left `π` roll
`-3π/4`, 南 bottom-right `-π/2` roll `3π/4`; fresh cameras start at the
origin with identity orientation and `up = (0,0,1)`. -/
def quadViews : Views4 where
  tl := ⟨Real.pi / 2, -(Real.pi / 4), ⟨0, 0, 0⟩, ⟨0, 0, 1⟩, ⟨0, 0, 0, 1⟩⟩
  tr := ⟨0, Real.pi / 4, ⟨0, 0, 0⟩, ⟨0, 0, 1⟩, ⟨0, 0, 0, 1⟩⟩
  bl := ⟨Real.pi, -(3 * Real.pi / 4), ⟨0, 0, 0⟩, ⟨0, 0, 1⟩, ⟨0, 0, 0, 1⟩⟩
  br := ⟨-(Real.pi / 2), 3 * Real.pi / 4, ⟨0, 0, 0⟩, ⟨0, 0, 1⟩, ⟨0, 0, 0, 1⟩⟩

/-! ## Hard-clamp quad-view viewer (`part_002` variant of `SplatViewer`) -/

/-- The mutable viewer state touched by the gesture/camera code of the
hard-clamp variant. -/
structure ViewerHC where
  orbitTarget : Vec3
  spherical : Spherical
  sphericalGoal : Spherical
  pointer : PointerState
  velocityTheta : ℝ
  velocityPhi : ℝ
  isSpinning : Bool
  needsRender : Bool
  renderLoopActive : Bool
  views : Views4

/-- `updateViewCameras` applied to one view: position from the shared
spherical state plus the view's azimuth offset, up reset to `(0,0,1)`,
orientation from the library `lookAt` (the opaque parameter `lookQ`),
then the screen roll about the local z axis. -/
def updateViewCam (lookQ : Vec3 → Vec3 → Vec3 → Quat) (sph : Spherical)
    (target : Vec3) (v : ViewCam) : ViewCam :=
  let temp : Spherical := { sph with theta := sph.theta + v.thetaOffset }
  let pos := setVectorFromOrbit temp + target
  let up : Vec3 := ⟨0, 0, 1⟩
  let q0 := lookQ pos target up
  let q := if v.screenRotation ≠ 0
    then Quat.mul q0 (Quat.fromAxisAngle ⟨0, 0, 1⟩ v.screenRotation) else q0
  { v with pos := pos, up := up, quat := q }

/-- `updateViewCameras` of the hard-clamp variant: every view follows the
shared spherical state strictly. -/
def updateViewCamerasHC (lookQ : Vec3 → Vec3 → Vec3 → Quat) (sph : Spherical)
    (target : Vec3) (vs : Views4) : Views4 where
  tl := updateViewCam lookQ sph target vs.tl
  tr := updateViewCam lookQ sph target vs.tr
  bl := updateViewCam lookQ sph target vs.bl
  br := updateViewCam lookQ sph target vs.br

/-- The non-immediate damping branch of `updateCamera`, shared verbatim by
all variants: move each component of `current` 15 % of the way to `goal`,
then snap to `goal` outright once all three per-call deltas fall under the
epsilons (`1e-6` rad for the angles, `1e-5` for the radius). -/
def dampSnap (goal current : Spherical) : Spherical :=
  let theta1 := current.theta + (goal.theta - current.theta) * dampingFactor
  let phi1 := current.phi + (goal.phi - current.phi) * dampingFactor
  let radius1 := current.radius + (goal.radius - current.radius) * dampingFactor
  if |theta1 - current.theta| < 1e-6 ∧ |phi1 - current.phi| < 1e-6 ∧
      |radius1 - current.radius| < 1e-5
  then goal
  else ⟨radius1, theta1, phi1⟩

/-- `updateCamera(immediate)` of the hard-clamp variant: clamp the goal
radius and polar angle, snap or damp `current`, `makeSafe`, recompute the
view cameras, and report whether anything observably changed (the primary
view is 东/top-right, `thetaOffset = 0`). -/
def updateCameraHC (lookQ : Vec3 → Vec3 → Vec3 → Quat) (s : ViewerHC)
    (immediate : Bool) : ViewerHC × Prop :=
  let goal : Spherical :=
    { radius := mclamp s.sphericalGoal.radius minDistance maxDistance
      theta := s.sphericalGoal.theta
      phi := mclamp s.sphericalGoal.phi minPolarAngle maxPolarAngle }
  let cur1 := if immediate then goal else dampSnap goal s.spherical
  let cur2 := cur1.makeSafe
  let prevPos := s.views.tr.pos
  let prevQuat := s.views.tr.quat
  let views := updateViewCamerasHC lookQ cur2 s.orbitTarget s.views
  let positionChanged := Vec3.distSq prevPos views.tr.pos > 1e-10
  let rotationChanged := 1 - |Quat.dot prevQuat views.tr.quat| > 1e-10
  let animating := |goal.theta - cur2.theta| > 1e-5 ∨
    |goal.phi - cur2.phi| > 1e-5 ∨ |goal.radius - cur2.radius| > 1e-4
  ({ s with spherical := cur2, sphericalGoal := goal, views := views },
   immediate = true ∨ positionChanged ∨ rotationChanged ∨ animating)

/-- `requestRender`: set the dirty flag; restart the frame loop only if it
is not already running. -/
def requestRenderHC (s : ViewerHC) : ViewerHC :=
  let s1 := { s with needsRender := true }
  if s1.renderLoopActive then s1 else { s1 with renderLoopActive := true }

/-- `handlePointerDown`: cancel spin, enter dragging, record the sample,
clear the axis lock, request a render. -/
def handlePointerDownHC (s : ViewerHC) (x y t : ℝ) : ViewerHC :=
  requestRenderHC
    { s with
      isSpinning := false
      velocityTheta := 0
      velocityPhi := 0
      pointer :=
        { isDragging := true
          lastX := x
          lastY := y
          lastTime := t
          axisLock := none } }

/-- `handlePointerMove` of the hard-clamp variant: pixel deltas since the
last sample, one-shot 1.5× axis-lock detection, goal update on the locked
axis (or both), exponentially smoothed velocity normalized to a 16.67 ms
frame, zeroing the unlocked axis's velocity. -/
def handlePointerMoveHC (s : ViewerHC) (x y t : ℝ) : ViewerHC :=
  if s.pointer.isDragging = false then s
  else
    let dt := max (t - s.pointer.lastTime) 1
    let deltaX := x - s.pointer.lastX
    let deltaY := y - s.pointer.lastY
    let s1 :=
      { s with pointer := { s.pointer with lastX := x, lastY := y, lastTime := t } }
    let absX := |deltaX|
    let absY := |deltaY|
    let lock : Option AxisLock :=
      if s1.pointer.axisLock = none then
        if absX > absY * axisLockThreshold then some AxisLock.horizontal
        else if absY > absX * axisLockThreshold then some AxisLock.vertical
        else none
      else s1.pointer.axisLock
    let s2 := { s1 with pointer := { s1.pointer with axisLock := lock } }
    let dTheta := -deltaX * rotateSpeed
    let dPhi := -deltaY * rotateSpeed
    let frameTime : ℝ := 16.67
    let velocitySmooth : ℝ := 0.3
    let s3 :=
      if lock = some AxisLock.horizontal then
        { s2 with
          sphericalGoal :=
            { s2.sphericalGoal with theta := s2.sphericalGoal.theta + dTheta }
          velocityTheta := s2.velocityTheta * (1 - velocitySmooth) +
            dTheta / dt * frameTime * velocitySmooth
          velocityPhi := 0 }
      else if lock = some AxisLock.vertical then
        { s2 with
          sphericalGoal :=
            { s2.sphericalGoal with phi := s2.sphericalGoal.phi + dPhi }
          velocityPhi := s2.velocityPhi * (1 - velocitySmooth) +
            dPhi / dt * frameTime * velocitySmooth
          velocityTheta := 0 }
      else
        { s2 with
          sphericalGoal :=
            { s2.sphericalGoal with
              theta := s2.sphericalGoal.theta + dTheta
              phi := s2.sphericalGoal.phi + dPhi }
          velocityTheta := s2.velocityTheta * (1 - velocitySmooth) +
            dTheta / dt * frameTime * velocitySmooth
          velocityPhi := s2.velocityPhi * (1 - velocitySmooth) +
            dPhi / dt * frameTime * velocitySmooth }
    requestRenderHC s3

/-- `handlePointerUp`: leave dragging, clear the axis lock, start the
inertia spin when a smoothed velocity exceeds 0.0005 rad/frame. -/
def handlePointerUpHC (s : ViewerHC) : ViewerHC :=
  let s1 :=
    { s with pointer := { s.pointer with isDragging := false, axisLock := none } }
  let s2 := if |s1.velocityTheta| > 0.0005 ∨ |s1.velocityPhi| > 0.0005
    then { s1 with isSpinning := true } else s1
  requestRenderHC s2

/-- `handlePointerLeave`: as `handlePointerUp`, but the spin check runs
only if a drag was active. -/
def handlePointerLeaveHC (s : ViewerHC) : ViewerHC :=
  let s1 := if s.pointer.isDragging then
      (if |s.velocityTheta| > 0.0005 ∨ |s.velocityPhi| > 0.0005
       then { s with isSpinning := true } else s)
    else s
  let s2 :=
    { s1 with pointer := { s1.pointer with isDragging := false, axisLock := none } }
  requestRenderHC s2

/-- The modifier-free dolly branch of `handleWheel`: cancel spin, move the
goal radius by `deltaY * 0.01` under the distance clamp.  (The
modifier-zoom branch raycasts through the opaque renderer and is outside
the modeled operation set.) -/
def handleWheelHC (s : ViewerHC) (deltaY : ℝ) : ViewerHC :=
  let s1 :=
    { s with
      isSpinning := false
      velocityTheta := 0
      velocityPhi := 0 }
  let s2 :=
    { s1 with
      sphericalGoal :=
        { s1.sphericalGoal with
          radius := mclamp (s1.sphericalGoal.radius + deltaY * 0.01)
            minDistance maxDistance } }
  requestRenderHC s2

/-- The wheel/drag operations of the gesture surface. -/
inductive OpHC where
  | pointerDown (x y t : ℝ)
  | pointerMove (x y t : ℝ)
  | pointerUp
  | pointerLeave
  | wheel (deltaY : ℝ)

/-- One operation followed by the per-frame (non-immediate) `updateCamera`,
as the render loop runs it. -/
def applyOpHC (lookQ : Vec3 → Vec3 → Vec3 → Quat) (s : ViewerHC)
    (op : OpHC) : ViewerHC :=
  let s1 := match op with
    | OpHC.pointerDown x y t => handlePointerDownHC s x y t
    | OpHC.pointerMove x y t => handlePointerMoveHC s x y t
    | OpHC.pointerUp => handlePointerUpHC s
    | OpHC.pointerLeave => handlePointerLeaveHC s
    | OpHC.wheel deltaY => handleWheelHC s deltaY
  (updateCameraHC lookQ s1 false).1

theorem requestRenderHC_pointer (s : ViewerHC) :
    (requestRenderHC s).pointer = s.pointer := by
  simp only [requestRenderHC]
  split_ifs <;> rfl

/-- `handlePointerMove` never modifies an already-set axis lock. -/
theorem handlePointerMoveHC_lock_stable (s : ViewerHC) (x y t : ℝ)
    (l : AxisLock) (h : s.pointer.axisLock = some l) :
    (handlePointerMoveHC s x y t).pointer.axisLock = some l := by
  unfold handlePointerMoveHC
  by_cases hd : s.pointer.isDragging = false
  · rw [if_pos hd]; exact h
  · rw [if_neg hd]
    simp only
    rw [h]
    simp only [reduceCtorEq, if_false]
    split_ifs <;> simp [requestRenderHC_pointer, h]

theorem foldl_moves_lock_stable (s : ViewerHC) (moves : List (ℝ × ℝ × ℝ))
    (l : AxisLock) (h : s.pointer.axisLock = some l) :
    (moves.foldl (fun a m => handlePointerMoveHC a m.1 m.2.1 m.2.2)
      s).pointer.axisLock = some l := by
  induction moves generalizing s with
  | nil => exact h
  | cons m rest ih =>
    exact ih _ (handlePointerMoveHC_lock_stable s m.1 m.2.1 m.2.2 l h)

/-- C4.  Axis lock stability: once a drag gesture's lock is `"horizontal"`,
every further pointer-move of the gesture — vertical-dominant deltas
included — leaves it `"horizontal"`; symmetrically for `"vertical"`; while
unlocked the lock activates exactly when one axis's absolute pixel delta
exceeds the other's by the 1.5× threshold; and pointer-up clears it. -/
theorem claim_C4_axis_lock_stability :
    (∀ (s : ViewerHC) (moves : List (ℝ × ℝ × ℝ)),
      s.pointer.axisLock = some AxisLock.horizontal →
      (moves.foldl (fun a m => handlePointerMoveHC a m.1 m.2.1 m.2.2)
        s).pointer.axisLock = some AxisLock.horizontal) ∧
    (∀ (s : ViewerHC) (moves : List (ℝ × ℝ × ℝ)),
      s.pointer.axisLock = some AxisLock.vertical →
      (moves.foldl (fun a m => handlePointerMoveHC a m.1 m.2.1 m.2.2)
        s).pointer.axisLock = some AxisLock.vertical) ∧
    (∀ (s : ViewerHC) (x y t : ℝ),
      s.pointer.isDragging = true → s.pointer.axisLock = none →
      ((|x - s.pointer.lastX| > |y - s.pointer.lastY| * axisLockThreshold →
        (handlePointerMoveHC s x y t).pointer.axisLock =
          some AxisLock.horizontal) ∧
       (|y - s.pointer.lastY| > |x - s.pointer.lastX| * axisLockThreshold →
        (handlePointerMoveHC s x y t).pointer.axisLock =
          some AxisLock.vertical))) ∧
    (∀ s : ViewerHC, (handlePointerUpHC s).pointer.axisLock = none) := by
  refine ⟨fun s moves h => foldl_moves_lock_stable s moves _ h,
    fun s moves h => foldl_moves_lock_stable s moves _ h, ?_, ?_⟩
  · intro s x y t hd hl
    have hd' : ¬ s.pointer.isDragging = false := by rw [hd]; simp
    constructor
    · intro hx
      unfold handlePointerMoveHC
      rw [if_neg hd']
      simp only
      rw [hl]
      rw [if_pos rfl, if_pos hx]
      split_ifs <;> simp [requestRenderHC_pointer]
    · intro hy
      have hnx : ¬ |x - s.pointer.lastX| > |y - s.pointer.lastY| *
          axisLockThreshold := by
        unfold axisLockThreshold at hy ⊢
        have h1 : 0 ≤ |y - s.pointer.lastY| := abs_nonneg _
        have h2 : 0 ≤ |x - s.pointer.lastX| := abs_nonneg _
        push_neg
        nlinarith
      unfold handlePointerMoveHC
      rw [if_neg hd']
      simp only
      rw [hl]
      rw [if_pos rfl, if_neg hnx, if_pos hy]
      split_ifs <;> simp [requestRenderHC_pointer]
  · intro s
    simp only [handlePointerUpHC]
    rw [requestRenderHC_pointer]
    split_ifs <;> rfl

theorem add_sub_cancel_vec (v t : Vec3) : (v + t) - t = v := by
  obtain ⟨a, b, c⟩ := v
  obtain ⟨d, e, f⟩ := t
  simp [Vec3.mk.injEq]

/-- A constant unit quaternion standing in for the opaque library `lookAt`
orientation when instantiating theorems at concrete inputs. -/
def constLookQ : Vec3 → Vec3 → Vec3 → Quat := fun _ _ _ => ⟨0, 0, 0, 1⟩

/-- A concrete quiescent viewer state of the hard-clamp variant. -/
def baseHC : ViewerHC where
  orbitTarget := ⟨0, 0, 0⟩
  spherical := ⟨4, 0, Real.pi / 2⟩
  sphericalGoal := ⟨4, 0, Real.pi / 2⟩
  pointer :=
    { isDragging := true
      lastX := 0
      lastY := 0
      lastTime := 0
      axisLock := none }
  velocityTheta := 0
  velocityPhi := 0
  isSpinning := false
  needsRender := false
  renderLoopActive := false
  views := quadViews

/-- C4 witness: a drag locked `"horizontal"` stays locked through a
vertical-dominant move `(0, 100)`. -/
theorem claim_C4_axis_lock_stability_witness :
    ({ baseHC with
        pointer := { baseHC.pointer with axisLock := some AxisLock.horizontal }
      } : ViewerHC).pointer.axisLock = some AxisLock.horizontal ∧
    (([((0 : ℝ), (100 : ℝ), (5 : ℝ))] : List (ℝ × ℝ × ℝ)).foldl
        (fun a m => handlePointerMoveHC a m.1 m.2.1 m.2.2)
        { baseHC with
          pointer :=
            { baseHC.pointer with axisLock := some AxisLock.horizontal } }
      ).pointer.axisLock = some AxisLock.horizontal :=
  ⟨rfl, claim_C4_axis_lock_stability.1 _ _ rfl⟩

theorem minDistance_le_maxDistance : minDistance ≤ maxDistance := by
  unfold minDistance maxDistance; norm_num

/-- `updateCamera` (hard-clamp) leaves the goal clamped. -/
theorem updateCameraHC_goal_clamped (lookQ : Vec3 → Vec3 → Vec3 → Quat)
    (s : ViewerHC) (b : Bool) :
    (updateCameraHC lookQ s b).1.sphericalGoal.radius ∈
      Set.Icc minDistance maxDistance ∧
    (updateCameraHC lookQ s b).1.sphericalGoal.phi ∈
      Set.Icc minPolarAngle maxPolarAngle := by
  simp only [updateCameraHC]
  exact ⟨mclamp_mem_Icc _ _ _ minDistance_le_maxDistance,
    mclamp_mem_Icc _ _ _ minPolar_lt_maxPolar.le⟩

theorem applyOpHC_goal_clamped (lookQ : Vec3 → Vec3 → Vec3 → Quat)
    (s : ViewerHC) (op : OpHC) :
    (applyOpHC lookQ s op).sphericalGoal.radius ∈
      Set.Icc minDistance maxDistance ∧
    (applyOpHC lookQ s op).sphericalGoal.phi ∈
      Set.Icc minPolarAngle maxPolarAngle := by
  unfold applyOpHC
  exact updateCameraHC_goal_clamped lookQ _ false

/-- C5.  Clamp invariant: after every nonempty sequence of wheel and drag
operations, each followed by the per-frame `updateCamera` of the
hard-clamp variant, the goal radius lies in `[minDistance, maxDistance] =
[0.3, 50]` and the goal polar angle lies in `[minPolarAngle,
maxPolarAngle] = [0.02, π − 0.02]`. -/
theorem claim_C5_clamp_invariant (lookQ : Vec3 → Vec3 → Vec3 → Quat)
    (s : ViewerHC) (ops : List OpHC) (h : ops ≠ []) :
    (ops.foldl (applyOpHC lookQ) s).sphericalGoal.radius ∈
      Set.Icc minDistance maxDistance ∧
    (ops.foldl (applyOpHC lookQ) s).sphericalGoal.phi ∈
      Set.Icc minPolarAngle maxPolarAngle := by
  induction ops generalizing s with
  | nil => exact absurd rfl h
  | cons op rest ih =>
    rw [List.foldl_cons]
    rcases eq_or_ne rest [] with hr | hr
    · rw [hr, List.foldl_nil]
      exact applyOpHC_goal_clamped lookQ s op
    · exact ih _ hr

/-- C5 witness: a single huge wheel-in followed by the per-frame update
keeps the goal inside the clamps. -/
theorem claim_C5_clamp_invariant_witness :
    ([OpHC.wheel 100000] : List OpHC) ≠ [] ∧
    (([OpHC.wheel 100000] : List OpHC).foldl (applyOpHC constLookQ)
        baseHC).sphericalGoal.radius ∈ Set.Icc minDistance maxDistance ∧
    (([OpHC.wheel 100000] : List OpHC).foldl (applyOpHC constLookQ)
        baseHC).sphericalGoal.phi ∈ Set.Icc minPolarAngle maxPolarAngle :=
  ⟨by simp,
   (claim_C5_clamp_invariant constLookQ baseHC _ (by simp)).1,
   (claim_C5_clamp_invariant constLookQ baseHC _ (by simp)).2⟩

theorem updateViewCam_pos (lookQ : Vec3 → Vec3 → Vec3 → Quat)
    (sph : Spherical) (target : Vec3) (v : ViewCam) :
    (updateViewCam lookQ sph target v).pos =
      setVectorFromOrbit { sph with theta := sph.theta + v.thetaOffset } +
        target := by
  simp only [updateViewCam]

theorem updateViewCam_dist (lookQ : Vec3 → Vec3 → Vec3 → Quat)
    (sph : Spherical) (target : Vec3) (v : ViewCam) (h : 0 ≤ sph.radius) :
    (updateViewCam lookQ sph target v).pos.dist target = sph.radius := by
  rw [updateViewCam_pos]
  unfold Vec3.dist
  rw [add_sub_cancel_vec, setVectorFromOrbit_len]
  exact abs_of_nonneg h

/-- C8.  Multi-viewport independence in quad mode: for every orbit state
with nonnegative radius and every orbit target, after `updateViewCameras`
all four viewport cameras sit at the same distance `radius` from the
target, and each position is exactly the shared spherical state with the
view's fixed azimuth offset (`π/2`, `0`, `π`, `−π/2`) added to `theta`,
converted to an offset vector from the target. -/
theorem claim_C8_quad_viewports (lookQ : Vec3 → Vec3 → Vec3 → Quat)
    (sph : Spherical) (target : Vec3) (h : 0 ≤ sph.radius) :
    ((updateViewCamerasHC lookQ sph target quadViews).tl.pos.dist target =
        sph.radius ∧
      (updateViewCamerasHC lookQ sph target quadViews).tr.pos.dist target =
        sph.radius ∧
      (updateViewCamerasHC lookQ sph target quadViews).bl.pos.dist target =
        sph.radius ∧
      (updateViewCamerasHC lookQ sph target quadViews).br.pos.dist target =
        sph.radius) ∧
    ((updateViewCamerasHC lookQ sph target quadViews).tl.pos =
        setVectorFromOrbit { sph with theta := sph.theta + Real.pi / 2 } +
          target ∧
      (updateViewCamerasHC lookQ sph target quadViews).tr.pos =
        setVectorFromOrbit { sph with theta := sph.theta + 0 } + target ∧
      (updateViewCamerasHC lookQ sph target quadViews).bl.pos =
        setVectorFromOrbit { sph with theta := sph.theta + Real.pi } +
          target ∧
      (updateViewCamerasHC lookQ sph target quadViews).br.pos =
        setVectorFromOrbit { sph with theta := sph.theta + -(Real.pi / 2) } +
          target) := by
  refine ⟨⟨?_, ?_, ?_, ?_⟩, ?_, ?_, ?_, ?_⟩ <;>
    simp only [updateViewCamerasHC] <;>
    first
      | exact updateViewCam_dist lookQ sph target _ h
      | exact updateViewCam_pos lookQ sph target _

/-- C8 witness: the quad cameras around the origin at orbit state
`{radius 1, theta 0, phi π/2}` all sit at distance 1. -/
theorem claim_C8_quad_viewports_witness :
    (0 : ℝ) ≤ (Spherical.mk 1 0 (Real.pi / 2)).radius ∧
    (updateViewCamerasHC constLookQ ⟨1, 0, Real.pi / 2⟩ ⟨0, 0, 0⟩
        quadViews).tr.pos.dist ⟨0, 0, 0⟩ = (Spherical.mk 1 0 (Real.pi / 2)).radius :=
  ⟨by norm_num,
   (claim_C8_quad_viewports constLookQ ⟨1, 0, Real.pi / 2⟩ ⟨0, 0, 0⟩
      (by norm_num)).1.2.1⟩

/-! ## Free-orbit single-view variant (`src/viewer/SplatViewer.ts`)

The shipped `SplatViewer.ts` defaults to `setupSingleView` (one full-screen
view, `screenRotation = 0`), drives the primary camera by quaternion
rotation (`rotateCamera`), wraps the goal polar angle through the poles in
`updateCamera`, and keeps `current` damped toward `goal`.  The state below
is the viewer state those code paths read or write; the decorative
eye/particle animation of the render loop is elided except for its one
claim-relevant effect, re-setting the dirty flag while particles are
visible (`currentEnergy > 0.01`). -/

structure ViewerFO where
  orbitTarget : Vec3
  defaultTarget : Vec3
  defaultSpherical : Spherical
  spherical : Spherical
  sphericalGoal : Spherical
  camPos : Vec3
  camUp : Vec3
  camQuat : Quat
  pointer : PointerState
  velocityTheta : ℝ
  velocityPhi : ℝ
  isSpinning : Bool
  needsRender : Bool
  renderLoopActive : Bool
  loopInstalled : Bool
  hasParticles : Bool
  currentEnergy : ℝ

/-- `rotateCamera(dTheta, dPhi)`: yaw the camera offset and up-vector about
world-z, pitch them about the camera's right vector, re-aim via the
library `lookAt` (parameter `lookQ`), and resynchronize both spherical
states from the resulting offset. -/
def rotateCameraFO (lookQ : Vec3 → Vec3 → Vec3 → Quat) (s : ViewerFO)
    (dTheta dPhi : ℝ) : ViewerFO :=
  let offset := s.camPos - s.orbitTarget
  let quatYaw := Quat.fromAxisAngle ⟨0, 0, 1⟩ dTheta
  let offset1 := offset.applyQuaternion quatYaw
  let up1 := s.camUp.applyQuaternion quatYaw
  let forward := (-offset1).normalize
  let right := (forward.cross up1).normalize
  let quatPitch := Quat.fromAxisAngle right dPhi
  let offset2 := offset1.applyQuaternion quatPitch
  let up2 := up1.applyQuaternion quatPitch
  let pos := s.orbitTarget + offset2
  let quat := lookQ pos s.orbitTarget up2
  let sph := setOrbitFromVector offset2
  { s with
    camPos := pos
    camUp := up2
    camQuat := quat
    spherical := sph
    sphericalGoal := sph }

/-- `updateViewCameras` in single-view mode: the primary camera keeps its
orientation; only its distance from the orbit target is re-imposed from
the damped spherical radius, guarded against a degenerate direction. -/
def updateViewCamerasFO (s : ViewerFO) : ViewerFO :=
  let currentDir := (s.camPos - s.orbitTarget).normalize
  if currentDir.lenSq > 0.0001 then
    { s with camPos := s.orbitTarget + Vec3.smul s.spherical.radius currentDir }
  else s

/-- `updateCamera(immediate)` of the free-orbit variant: clamp the goal
radius, wrap the goal polar angle through the poles (`wrapPoles`), snap or
damp `current` (no `makeSafe` — removed to avoid re-clamping after pole
wrapping), update the view camera, and report whether anything observably
changed. -/
def updateCameraFO (s : ViewerFO) (immediate : Bool) : ViewerFO × Prop :=
  let w := wrapPoles (s.sphericalGoal.phi, s.sphericalGoal.theta)
  let goal : Spherical :=
    { radius := mclamp s.sphericalGoal.radius minDistance maxDistance
      theta := w.2
      phi := w.1 }
  let cur := if immediate then goal else dampSnap goal s.spherical
  let prevPos := s.camPos
  let prevQuat := s.camQuat
  let s1 := updateViewCamerasFO { s with spherical := cur, sphericalGoal := goal }
  let positionChanged := Vec3.distSq prevPos s1.camPos > 1e-10
  let rotationChanged := 1 - |Quat.dot prevQuat s1.camQuat| > 1e-10
  let animating := |goal.theta - cur.theta| > 1e-5 ∨
    |goal.phi - cur.phi| > 1e-5 ∨ |goal.radius - cur.radius| > 1e-4
  (s1, immediate = true ∨ positionChanged ∨ rotationChanged ∨ animating)

/-- The per-frame camera step, as the render loop invokes it
(`updateCamera()` with `immediate = false`). -/
def stepFO (s : ViewerFO) : ViewerFO := (updateCameraFO s false).1

/-- `requestRender`: set the dirty flag; if the loop is not running, mark
it active and install the frame callback (`setAnimationLoop`). -/
def requestRenderFO (s : ViewerFO) : ViewerFO :=
  let s1 := { s with needsRender := true }
  if s1.renderLoopActive then s1
  else { s1 with renderLoopActive := true, loopInstalled := true }

/-- The frame callback `renderLoop`: particle-visibility dirtying, inertia
via `rotateCamera`, the per-frame `updateCamera`, the conditional render
(which clears the dirty flag), and self-teardown
(`setAnimationLoop(null)`, `renderLoopActive = false`) when nothing
changed, nothing is dirty and no spin is active. -/
def renderLoopFO (lookQ : Vec3 → Vec3 → Vec3 → Quat) (s : ViewerFO) :
    ViewerFO :=
  let s1 := if s.hasParticles = true ∧ s.currentEnergy > 0.01
    then { s with needsRender := true } else s
  let s2 := if s1.isSpinning = true ∧ s1.pointer.isDragging = false
    then rotateCameraFO lookQ s1 s1.velocityTheta s1.velocityPhi else s1
  let r := updateCameraFO s2 false
  let s3 := r.1
  let cameraChanged := r.2
  let spinning := s3.isSpinning = true ∧ s3.pointer.isDragging = false
  let s4 := if s3.needsRender = true ∨ cameraChanged ∨ spinning
    then { s3 with needsRender := false } else s3
  if ¬cameraChanged ∧ s4.needsRender = false ∧ ¬spinning
  then { s4 with renderLoopActive := false, loopInstalled := false }
  else s4

/-- `resetView(immediate)`: stop the gesture and the spin, restore the
default target and goal, optionally copy `current` too, then
`updateCamera(true)` and `requestRender`. -/
def resetViewFO (s : ViewerFO) (immediate : Bool) : ViewerFO :=
  let s1 :=
    { s with
      pointer := { s.pointer with isDragging := false, axisLock := none }
      isSpinning := false
      velocityTheta := 0
      velocityPhi := 0
      orbitTarget := s.defaultTarget
      sphericalGoal := s.defaultSpherical
      spherical := if immediate then s.defaultSpherical else s.spherical }
  let s2 := (updateCameraFO s1 true).1
  requestRenderFO s2

theorem mclamp_id (x lo hi : ℝ) (h1 : lo ≤ x) (h2 : x ≤ hi) :
    mclamp x lo hi = x := by
  unfold mclamp
  rw [min_eq_right h2, max_eq_right h1]

theorem dampSnap_self (g : Spherical) : dampSnap g g = g := by
  simp only [dampSnap]
  rw [if_pos]
  refine ⟨?_, ?_, ?_⟩ <;> simp <;> norm_num

theorem normalize_lenSq (v : Vec3) (h : v.len ≠ 0) :
    v.normalize.lenSq = 1 := by
  have hsq : v.len ^ 2 = v.x ^ 2 + v.y ^ 2 + v.z ^ 2 :=
    Real.sq_sqrt (by positivity)
  simp only [Vec3.normalize, if_neg h, Vec3.smul, Vec3.lenSq]
  field_simp
  linarith [hsq]

theorem target_add_smul_normalize (pos target : Vec3) (r : ℝ)
    (h : (pos - target).len = r) (hne : r ≠ 0) :
    target + Vec3.smul r (pos - target).normalize = pos := by
  have hlen : (pos - target).len ≠ 0 := by rw [h]; exact hne
  rw [Vec3.normalize, if_neg hlen, h]
  obtain ⟨a, b, c⟩ := pos
  obtain ⟨d, e, f⟩ := target
  simp only [Vec3.sub_def, Vec3.smul, Vec3.add_def, Vec3.mk.injEq]
  refine ⟨?_, ?_, ?_⟩ <;> field_simp

/-- When the camera offset length already equals the damped radius, the
single-view `updateViewCameras` is the identity. -/
theorem updateViewCamerasFO_synced (s : ViewerFO)
    (h : (s.camPos - s.orbitTarget).len = s.spherical.radius)
    (hne : s.spherical.radius ≠ 0) :
    updateViewCamerasFO s = s := by
  have hlen : (s.camPos - s.orbitTarget).len ≠ 0 := by rw [h]; exact hne
  simp only [updateViewCamerasFO]
  rw [if_pos (by rw [normalize_lenSq _ hlen]; norm_num),
    target_add_smul_normalize s.camPos s.orbitTarget _ h hne]

theorem distSq_self (v : Vec3) : Vec3.distSq v v = 0 := by
  obtain ⟨a, b, c⟩ := v
  simp [Vec3.distSq, Vec3.lenSq]

theorem dot_self_normSq (q : Quat) : Quat.dot q q = q.normSq := by
  simp [Quat.dot, Quat.normSq]
  ring

/-- In a settled state (goal within the clamp bands, `current = goal`,
camera offset consistent with the radius, unit camera quaternion) the
free-orbit `updateCamera(false)` leaves the state unchanged and reports no
change. -/
theorem updateCameraFO_settled (s : ViewerFO)
    (hcg : s.spherical = s.sphericalGoal)
    (hr : s.sphericalGoal.radius ∈ Set.Icc minDistance maxDistance)
    (hp : s.sphericalGoal.phi ∈ Set.Icc minPolarAngle maxPolarAngle)
    (hpos : (s.camPos - s.orbitTarget).len = s.sphericalGoal.radius)
    (hq : s.camQuat.normSq = 1) :
    (updateCameraFO s false).1 = s ∧ ¬(updateCameraFO s false).2 := by
  have hrne : s.sphericalGoal.radius ≠ 0 := by
    have := hr.1
    unfold minDistance at this
    intro h0
    rw [h0] at this
    norm_num at this
  have hwrap : wrapPoles (s.sphericalGoal.phi, s.sphericalGoal.theta) =
      (s.sphericalGoal.phi, s.sphericalGoal.theta) :=
    wrapPoles_id _ hp.1 hp.2
  have hrad : mclamp s.sphericalGoal.radius minDistance maxDistance =
      s.sphericalGoal.radius := mclamp_id _ _ _ hr.1 hr.2
  have hgoal :
      (⟨s.sphericalGoal.radius, s.sphericalGoal.theta, s.sphericalGoal.phi⟩ :
        Spherical) = s.sphericalGoal := rfl
  have hupd : ({ s with
      spherical := s.sphericalGoal
      sphericalGoal := s.sphericalGoal } : ViewerFO) = s := by
    nth_rewrite 1 [← hcg]
    rfl
  simp only [updateCameraFO, hwrap, hrad]
  simp only [hgoal]
  simp only [Bool.false_eq_true, if_false]
  rw [← hcg, dampSnap_self, hcg]
  rw [hupd,
    updateViewCamerasFO_synced s (by rw [hcg]; exact hpos) (by rw [hcg]; exact hrne)]
  refine ⟨rfl, ?_⟩
  rintro (h | h | h | h)
  · simp at h
  · rw [distSq_self] at h
    norm_num at h
  · rw [dot_self_normSq, hq] at h
    norm_num at h
  · rcases h with h | h | h <;> rw [sub_self, abs_zero] at h <;> norm_num at h

/-- C6.  Scheduler idempotence and termination: in every state with no
active drag, no active spin and `current = goal` (the goal inside the
clamp bands, the camera pose in sync with it, the camera quaternion unit —
the invariants of every settled frame), `updateCamera` reports no change
and one run of the frame callback tears the loop down
(`setAnimationLoop(null)`, `renderLoopActive = false`); and for every
state, `requestRender` leaves the loop running within that one call, and
is idempotent while the loop runs (it only re-sets the dirty flag). -/
theorem claim_C6_scheduler_idempotent_terminates
    (lookQ : Vec3 → Vec3 → Vec3 → Quat) (s : ViewerFO)
    (hdrag : s.pointer.isDragging = false)
    (hspin : s.isSpinning = false)
    (hcg : s.spherical = s.sphericalGoal)
    (hr : s.sphericalGoal.radius ∈ Set.Icc minDistance maxDistance)
    (hp : s.sphericalGoal.phi ∈ Set.Icc minPolarAngle maxPolarAngle)
    (hpos : (s.camPos - s.orbitTarget).len = s.sphericalGoal.radius)
    (hq : s.camQuat.normSq = 1) :
    ¬(updateCameraFO s false).2 ∧
    (renderLoopFO lookQ s).renderLoopActive = false ∧
    (renderLoopFO lookQ s).loopInstalled = false ∧
    (∀ t : ViewerFO, (requestRenderFO t).renderLoopActive = true) ∧
    (∀ t : ViewerFO, t.renderLoopActive = true →
      requestRenderFO t = { t with needsRender := true }) := by
  have hteardown : (renderLoopFO lookQ s).renderLoopActive = false ∧
      (renderLoopFO lookQ s).loopInstalled = false := by
    simp only [renderLoopFO]
    by_cases hpart : s.hasParticles = true ∧ s.currentEnergy > 0.01
    · rw [if_pos hpart]
      have hsp : ¬(({ s with needsRender := true } : ViewerFO).isSpinning =
          true ∧ ({ s with needsRender := true } : ViewerFO).pointer.isDragging
            = false) := by
        simp [hspin]
      rw [if_neg hsp]
      have hsett := updateCameraFO_settled { s with needsRender := true }
        hcg hr hp hpos hq
      rw [hsett.1]
      rw [if_pos (Or.inl rfl)]
      rw [if_pos ⟨hsett.2, rfl, hsp⟩]
      exact ⟨rfl, rfl⟩
    · rw [if_neg hpart]
      have hsp : ¬(s.isSpinning = true ∧ s.pointer.isDragging = false) := by
        simp [hspin]
      rw [if_neg hsp]
      have hsett := updateCameraFO_settled s hcg hr hp hpos hq
      rw [hsett.1]
      by_cases hnr : s.needsRender = true
      · rw [if_pos (Or.inl hnr)]
        rw [if_pos ⟨hsett.2, rfl, hsp⟩]
        exact ⟨rfl, rfl⟩
      · have hnr' : s.needsRender = false := by
          revert hnr; cases s.needsRender <;> simp
        rw [if_neg (fun h => Or.elim h hnr (fun h2 => Or.elim h2 hsett.2 hsp))]
        rw [if_pos ⟨hsett.2, hnr', hsp⟩]
        exact ⟨rfl, rfl⟩
  refine ⟨(updateCameraFO_settled s hcg hr hp hpos hq).2,
    hteardown.1, hteardown.2, ?_, ?_⟩
  · intro t
    simp only [requestRenderFO]
    split_ifs with h
    · exact h
    · rfl
  · intro t ht
    simp only [requestRenderFO]
    rw [if_pos ht]

theorem updateViewCamerasFO_spherical (s : ViewerFO) :
    (updateViewCamerasFO s).spherical = s.spherical := by
  simp only [updateViewCamerasFO]
  split_ifs <;> rfl

theorem updateViewCamerasFO_sphericalGoal (s : ViewerFO) :
    (updateViewCamerasFO s).sphericalGoal = s.sphericalGoal := by
  simp only [updateViewCamerasFO]
  split_ifs <;> rfl

/-- With the goal already inside the clamp bands, the per-frame camera step
fixes the goal and damps `current` by `dampSnap`. -/
theorem stepFO_spherical (s : ViewerFO)
    (hr : s.sphericalGoal.radius ∈ Set.Icc minDistance maxDistance)
    (hp : s.sphericalGoal.phi ∈ Set.Icc minPolarAngle maxPolarAngle) :
    (stepFO s).sphericalGoal = s.sphericalGoal ∧
    (stepFO s).spherical = dampSnap s.sphericalGoal s.spherical := by
  have hwrap : wrapPoles (s.sphericalGoal.phi, s.sphericalGoal.theta) =
      (s.sphericalGoal.phi, s.sphericalGoal.theta) :=
    wrapPoles_id _ hp.1 hp.2
  have hrad : mclamp s.sphericalGoal.radius minDistance maxDistance =
      s.sphericalGoal.radius := mclamp_id _ _ _ hr.1 hr.2
  simp only [stepFO, updateCameraFO, hwrap, hrad, Bool.false_eq_true, if_false]
  exact ⟨by rw [updateViewCamerasFO_sphericalGoal],
    by rw [updateViewCamerasFO_spherical]⟩

/-- One `dampSnap` either snaps outright or contracts every component's
gap by exactly the factor `1 - dampingFactor`. -/
theorem dampSnap_gap (g c : Spherical) :
    dampSnap g c = g ∨
    (g.theta - (dampSnap g c).theta =
        (1 - dampingFactor) * (g.theta - c.theta) ∧
      g.phi - (dampSnap g c).phi = (1 - dampingFactor) * (g.phi - c.phi) ∧
      g.radius - (dampSnap g c).radius =
        (1 - dampingFactor) * (g.radius - c.radius)) := by
  simp only [dampSnap]
  split_ifs with h
  · left; rfl
  · right
    refine ⟨?_, ?_, ?_⟩ <;> simp only <;> ring

theorem dampSnap_small (g c : Spherical)
    (h1 : |g.theta - c.theta| * dampingFactor < 1e-6)
    (h2 : |g.phi - c.phi| * dampingFactor < 1e-6)
    (h3 : |g.radius - c.radius| * dampingFactor < 1e-5) :
    dampSnap g c = g := by
  have hd : |dampingFactor| = dampingFactor := by unfold dampingFactor; norm_num
  simp only [dampSnap]
  rw [if_pos]
  refine ⟨?_, ?_, ?_⟩
  · rw [show c.theta + (g.theta - c.theta) * dampingFactor - c.theta =
      (g.theta - c.theta) * dampingFactor from by ring, abs_mul, hd]
    exact h1
  · rw [show c.phi + (g.phi - c.phi) * dampingFactor - c.phi =
      (g.phi - c.phi) * dampingFactor from by ring, abs_mul, hd]
    exact h2
  · rw [show c.radius + (g.radius - c.radius) * dampingFactor - c.radius =
      (g.radius - c.radius) * dampingFactor from by ring, abs_mul, hd]
    exact h3

theorem stepFO_iter_gap (s : ViewerFO)
    (hr : s.sphericalGoal.radius ∈ Set.Icc minDistance maxDistance)
    (hp : s.sphericalGoal.phi ∈ Set.Icc minPolarAngle maxPolarAngle)
    (n : ℕ) :
    (stepFO^[n] s).sphericalGoal = s.sphericalGoal ∧
    ((stepFO^[n] s).spherical = s.sphericalGoal ∨
      (s.sphericalGoal.theta - (stepFO^[n] s).spherical.theta =
          (1 - dampingFactor) ^ n *
            (s.sphericalGoal.theta - s.spherical.theta) ∧
        s.sphericalGoal.phi - (stepFO^[n] s).spherical.phi =
          (1 - dampingFactor) ^ n * (s.sphericalGoal.phi - s.spherical.phi) ∧
        s.sphericalGoal.radius - (stepFO^[n] s).spherical.radius =
          (1 - dampingFactor) ^ n *
            (s.sphericalGoal.radius - s.spherical.radius))) := by
  induction n with
  | zero =>
    rw [Function.iterate_zero_apply]
    exact ⟨rfl, Or.inr ⟨by ring, by ring, by ring⟩⟩
  | succ n ih =>
    have hr' : (stepFO^[n] s).sphericalGoal.radius ∈
        Set.Icc minDistance maxDistance := by rw [ih.1]; exact hr
    have hp' : (stepFO^[n] s).sphericalGoal.phi ∈
        Set.Icc minPolarAngle maxPolarAngle := by rw [ih.1]; exact hp
    have hstep := stepFO_spherical (stepFO^[n] s) hr' hp'
    rw [Function.iterate_succ_apply']
    constructor
    · rw [hstep.1, ih.1]
    · rw [hstep.2, ih.1]
      rcases ih.2 with hsnap | hgap
      · left
        rw [hsnap, dampSnap_self]
      · rcases dampSnap_gap s.sphericalGoal ((stepFO^[n] s).spherical)
          with h | h
        · left; exact h
        · right
          obtain ⟨e1, e2, e3⟩ := h
          obtain ⟨f1, f2, f3⟩ := hgap
          refine ⟨?_, ?_, ?_⟩
          · rw [pow_succ, e1, f1]; ring
          · rw [pow_succ, e2, f2]; ring
          · rw [pow_succ, e3, f3]; ring

theorem dampingFactor_pos : 0 < dampingFactor := by
  unfold dampingFactor; norm_num

theorem one_sub_damping_lt_one : 1 - dampingFactor < 1 := by
  unfold dampingFactor; norm_num

theorem one_sub_damping_pos : 0 < 1 - dampingFactor := by
  unfold dampingFactor; norm_num

/-- Repeated per-frame camera steps reach the (in-range) goal exactly in a
bounded number of iterations: the gaps contract geometrically until the
snap fires. -/
theorem stepFO_converges (s : ViewerFO)
    (hr : s.sphericalGoal.radius ∈ Set.Icc minDistance maxDistance)
    (hp : s.sphericalGoal.phi ∈ Set.Icc minPolarAngle maxPolarAngle) :
    ∃ N, (stepFO^[N] s).spherical = s.sphericalGoal := by
  set gθ := s.sphericalGoal.theta - s.spherical.theta with hgθ
  set gφ := s.sphericalGoal.phi - s.spherical.phi with hgφ
  set gr := s.sphericalGoal.radius - s.spherical.radius with hgr
  set G := max (max |gθ| |gφ|) |gr| with hG
  have hG0 : 0 ≤ G := le_trans (abs_nonneg gr) (le_max_right _ _)
  have hGθ : |gθ| ≤ G := le_trans (le_max_left _ _) (le_max_left _ _)
  have hGφ : |gφ| ≤ G := le_trans (le_max_right _ _) (le_max_left _ _)
  have hGr : |gr| ≤ G := le_max_right _ _
  have hmulpos : (0:ℝ) < dampingFactor * (G + 1) :=
    mul_pos dampingFactor_pos (by linarith)
  have hεpos : (0:ℝ) < 1e-6 / (dampingFactor * (G + 1)) :=
    div_pos (by norm_num) hmulpos
  obtain ⟨n, hn⟩ := exists_pow_lt_of_lt_one hεpos one_sub_damping_lt_one
  have hpowpos : 0 < (1 - dampingFactor) ^ n := pow_pos one_sub_damping_pos n
  have hkey : (1 - dampingFactor) ^ n * (dampingFactor * (G + 1)) < 1e-6 :=
    (lt_div_iff hmulpos).mp hn
  have hdf := dampingFactor_pos
  refine ⟨n + 1, ?_⟩
  have hinv := stepFO_iter_gap s hr hp n
  have hr' : (stepFO^[n] s).sphericalGoal.radius ∈
      Set.Icc minDistance maxDistance := by rw [hinv.1]; exact hr
  have hp' : (stepFO^[n] s).sphericalGoal.phi ∈
      Set.Icc minPolarAngle maxPolarAngle := by rw [hinv.1]; exact hp
  have hstep := stepFO_spherical (stepFO^[n] s) hr' hp'
  rw [Function.iterate_succ_apply', hstep.2, hinv.1]
  rcases hinv.2 with hsnap | hgap
  · rw [hsnap, dampSnap_self]
  · obtain ⟨f1, f2, f3⟩ := hgap
    apply dampSnap_small
    · rw [f1, abs_mul, abs_of_nonneg hpowpos.le]
      nlinarith [hGθ, hkey, hpowpos, hdf, hG0, abs_nonneg gθ]
    · rw [f2, abs_mul, abs_of_nonneg hpowpos.le]
      nlinarith [hGφ, hkey, hpowpos, hdf, hG0, abs_nonneg gφ]
    · rw [f3, abs_mul, abs_of_nonneg hpowpos.le]
      have h6 : (1 - dampingFactor) ^ n * |gr| * dampingFactor < 1e-6 := by
        nlinarith [hGr, hkey, hpowpos, hdf, hG0, abs_nonneg gr]
      linarith

/-- C7.  Damping convergence: with the goal inside the clamp bands (so it
is a fixed point of the per-frame clamp/wrap), each non-immediate
`updateCamera` keeps the goal fixed and either moves every component of
`current` toward the goal by exactly the fraction `dampingFactor = 0.15`
(gap factor `1 - 0.15` per call) or snaps `current := goal` outright —
the snap firing once all per-call deltas fall under `1e-6` rad (angles) /
`1e-5` (radius) — and `current` reaches the goal exactly in a bounded
number of iterations. -/
theorem claim_C7_damping_convergence (s : ViewerFO)
    (hr : s.sphericalGoal.radius ∈ Set.Icc minDistance maxDistance)
    (hp : s.sphericalGoal.phi ∈ Set.Icc minPolarAngle maxPolarAngle) :
    ((stepFO s).sphericalGoal = s.sphericalGoal ∧
      ((stepFO s).spherical = s.sphericalGoal ∨
        (s.sphericalGoal.theta - (stepFO s).spherical.theta =
            (1 - dampingFactor) *
              (s.sphericalGoal.theta - s.spherical.theta) ∧
          s.sphericalGoal.phi - (stepFO s).spherical.phi =
            (1 - dampingFactor) * (s.sphericalGoal.phi - s.spherical.phi) ∧
          s.sphericalGoal.radius - (stepFO s).spherical.radius =
            (1 - dampingFactor) *
              (s.sphericalGoal.radius - s.spherical.radius)))) ∧
    ∃ N, (stepFO^[N] s).spherical = s.sphericalGoal := by
  have hstep := stepFO_spherical s hr hp
  refine ⟨⟨hstep.1, ?_⟩, stepFO_converges s hr hp⟩
  rw [hstep.2]
  exact dampSnap_gap s.sphericalGoal s.spherical

/-- A concrete settled free-orbit viewer state. -/
def baseFO : ViewerFO where
  orbitTarget := ⟨0, 0, 0⟩
  defaultTarget := ⟨0, 0, 0⟩
  defaultSpherical := ⟨4, 0, Real.pi / 2⟩
  spherical := ⟨4, 0, Real.pi / 2⟩
  sphericalGoal := ⟨4, 0, Real.pi / 2⟩
  camPos := ⟨4, 0, 0⟩
  camUp := ⟨0, 0, 1⟩
  camQuat := ⟨0, 0, 0, 1⟩
  pointer :=
    { isDragging := false
      lastX := 0
      lastY := 0
      lastTime := 0
      axisLock := none }
  velocityTheta := 0
  velocityPhi := 0
  isSpinning := false
  needsRender := false
  renderLoopActive := true
  loopInstalled := true
  hasParticles := true
  currentEnergy := 1

theorem baseFO_radius_mem :
    baseFO.sphericalGoal.radius ∈ Set.Icc minDistance maxDistance := by
  unfold baseFO minDistance maxDistance
  norm_num

theorem baseFO_phi_mem :
    baseFO.sphericalGoal.phi ∈ Set.Icc minPolarAngle maxPolarAngle := by
  unfold baseFO minPolarAngle maxPolarAngle
  constructor <;> simp <;> linarith [Real.pi_gt_three]

theorem baseFO_pos_sync :
    (baseFO.camPos - baseFO.orbitTarget).len = baseFO.sphericalGoal.radius := by
  unfold baseFO Vec3.len
  simp only [Vec3.sub_def]
  norm_num
  rw [show (16:ℝ) = 4 ^ 2 by norm_num, Real.sqrt_sq (by norm_num)]

theorem baseFO_quat_unit : baseFO.camQuat.normSq = 1 := by
  unfold baseFO Quat.normSq
  norm_num

/-- C6 witness: the settled state `baseFO` reports no change and tears the
loop down in one frame. -/
theorem claim_C6_scheduler_witness :
    baseFO.pointer.isDragging = false ∧ baseFO.isSpinning = false ∧
    baseFO.spherical = baseFO.sphericalGoal ∧
    (¬(updateCameraFO baseFO false).2 ∧
      (renderLoopFO constLookQ baseFO).renderLoopActive = false) :=
  ⟨rfl, rfl, rfl,
   (claim_C6_scheduler_idempotent_terminates constLookQ baseFO rfl rfl rfl
      baseFO_radius_mem baseFO_phi_mem baseFO_pos_sync baseFO_quat_unit).1,
   (claim_C6_scheduler_idempotent_terminates constLookQ baseFO rfl rfl rfl
      baseFO_radius_mem baseFO_phi_mem baseFO_pos_sync baseFO_quat_unit).2.1⟩

/-- C7 witness: from a displaced current state, the iterates reach the
goal of `baseFO` exactly. -/
theorem claim_C7_damping_convergence_witness :
    ({ baseFO with spherical := ⟨10, 1, 1⟩ } : ViewerFO).sphericalGoal.radius ∈
      Set.Icc minDistance maxDistance ∧
    ∃ N, (stepFO^[N] { baseFO with spherical := ⟨10, 1, 1⟩ }).spherical =
      ({ baseFO with spherical := ⟨10, 1, 1⟩ } : ViewerFO).sphericalGoal :=
  ⟨baseFO_radius_mem,
   (claim_C7_damping_convergence { baseFO with spherical := ⟨10, 1, 1⟩ }
      baseFO_radius_mem baseFO_phi_mem).2⟩

theorem requestRenderFO_fields (s : ViewerFO) :
    (requestRenderFO s).spherical = s.spherical ∧
    (requestRenderFO s).sphericalGoal = s.sphericalGoal ∧
    (requestRenderFO s).orbitTarget = s.orbitTarget ∧
    (requestRenderFO s).pointer = s.pointer ∧
    (requestRenderFO s).isSpinning = s.isSpinning ∧
    (requestRenderFO s).velocityTheta = s.velocityTheta ∧
    (requestRenderFO s).velocityPhi = s.velocityPhi := by
  simp only [requestRenderFO]
  split_ifs <;> exact ⟨rfl, rfl, rfl, rfl, rfl, rfl, rfl⟩

theorem updateViewCamerasFO_fields (s : ViewerFO) :
    (updateViewCamerasFO s).orbitTarget = s.orbitTarget ∧
    (updateViewCamerasFO s).pointer = s.pointer ∧
    (updateViewCamerasFO s).isSpinning = s.isSpinning ∧
    (updateViewCamerasFO s).velocityTheta = s.velocityTheta ∧
    (updateViewCamerasFO s).velocityPhi = s.velocityPhi := by
  simp only [updateViewCamerasFO]
  split_ifs <;> exact ⟨rfl, rfl, rfl, rfl, rfl⟩

/-- The exact spherical state `resetView` installs: the default snapshot
with its radius clamped into `[minDistance, maxDistance]` and its polar
angle wrapped into `[minPolarAngle, maxPolarAngle]` by the trailing
`updateCamera(true)`. -/
def resetSpherical (s : ViewerFO) : Spherical where
  radius := mclamp s.defaultSpherical.radius minDistance maxDistance
  theta := (wrapPoles (s.defaultSpherical.phi, s.defaultSpherical.theta)).2
  phi := (wrapPoles (s.defaultSpherical.phi, s.defaultSpherical.theta)).1

/-- What `resetView(immediate)` leaves behind, for either value of
`immediate`: `current = goal = resetSpherical`, default target, gesture
and spin off, zero velocities. -/
theorem resetViewFO_fields (s : ViewerFO) (b : Bool) :
    (resetViewFO s b).spherical = resetSpherical s ∧
    (resetViewFO s b).sphericalGoal = resetSpherical s ∧
    (resetViewFO s b).orbitTarget = s.defaultTarget ∧
    (resetViewFO s b).pointer.isDragging = false ∧
    (resetViewFO s b).isSpinning = false ∧
    (resetViewFO s b).velocityTheta = 0 ∧
    (resetViewFO s b).velocityPhi = 0 := by
  have key : ∀ u : ViewerFO, u.sphericalGoal = s.defaultSpherical →
      (updateCameraFO u true).1.spherical = resetSpherical s ∧
      (updateCameraFO u true).1.sphericalGoal = resetSpherical s ∧
      (updateCameraFO u true).1.orbitTarget = u.orbitTarget ∧
      (updateCameraFO u true).1.pointer = u.pointer ∧
      (updateCameraFO u true).1.isSpinning = u.isSpinning ∧
      (updateCameraFO u true).1.velocityTheta = u.velocityTheta ∧
      (updateCameraFO u true).1.velocityPhi = u.velocityPhi := by
    intro u hu
    obtain ⟨k1, k2, k3, k4, k5⟩ :=
      updateViewCamerasFO_fields
        { u with
          spherical := resetSpherical s
          sphericalGoal := resetSpherical s }
    simp only [updateCameraFO, hu, reduceIte, resetSpherical]
    refine ⟨?_, ?_, ?_, ?_, ?_, ?_, ?_⟩
    · rw [updateViewCamerasFO_spherical]
    · rw [updateViewCamerasFO_sphericalGoal]
    · exact k1
    · exact k2
    · exact k3
    · exact k4
    · exact k5
  have hres : resetViewFO s b = requestRenderFO ((updateCameraFO
      { s with
        pointer := { s.pointer with isDragging := false, axisLock := none }
        isSpinning := false
        velocityTheta := 0
        velocityPhi := 0
        orbitTarget := s.defaultTarget
        sphericalGoal := s.defaultSpherical
        spherical := if b = true then s.defaultSpherical else s.spherical }
      true).1) := rfl
  obtain ⟨q1, q2, q3, q4, q5, q6, q7⟩ := requestRenderFO_fields
    ((updateCameraFO
      { s with
        pointer := { s.pointer with isDragging := false, axisLock := none }
        isSpinning := false
        velocityTheta := 0
        velocityPhi := 0
        orbitTarget := s.defaultTarget
        sphericalGoal := s.defaultSpherical
        spherical := if b = true then s.defaultSpherical else s.spherical }
      true).1)
  obtain ⟨w1, w2, w3, w4, w5, w6, w7⟩ := key
    { s with
      pointer := { s.pointer with isDragging := false, axisLock := none }
      isSpinning := false
      velocityTheta := 0
      velocityPhi := 0
      orbitTarget := s.defaultTarget
      sphericalGoal := s.defaultSpherical
      spherical := if b = true then s.defaultSpherical else s.spherical }
    rfl
  rw [hres]
  exact ⟨q1.trans w1, q2.trans w2, q3.trans w3,
    by rw [q4, w4], q5.trans w5, q6.trans w6, q7.trans w7⟩

/-- C10 counterexample to the claim as stated: `fitViewToModel` never
clamps the default snapshot (`defaultDistance = max(1.5·fit, 3·radius)`
is unbounded for large assets), and for a default radius of 100 the
trailing `updateCamera(true)` of `resetView` clamps the goal to
`maxDistance = 50` before copying it, so the returned `current` is *not*
the default snapshot. -/
theorem claim_C10_resetView_counterexample :
    (resetViewFO { baseFO with defaultSpherical := ⟨100, 0, Real.pi / 2⟩ }
        true).spherical ≠
      ({ baseFO with defaultSpherical := ⟨100, 0, Real.pi / 2⟩ } :
        ViewerFO).defaultSpherical := by
  intro h
  rw [(resetViewFO_fields
    { baseFO with defaultSpherical := ⟨100, 0, Real.pi / 2⟩ } true).1] at h
  have hr := congrArg Spherical.radius h
  simp only [resetSpherical] at hr
  have hmem := mclamp_mem_Icc (100 : ℝ) minDistance maxDistance
    minDistance_le_maxDistance
  rw [hr] at hmem
  have h2 := hmem.2
  unfold maxDistance at h2
  norm_num at h2

/-- C10 (amended).  `resetView(immediate)` restores the rendered pose
synchronously and identically for both values of `immediate` — the
trailing `updateCamera(true)` copies `current := goal` either way, so the
parameter has no observable effect: on return `current` and `goal` equal
the default snapshot *with its radius clamped into `[minDistance,
maxDistance]` and its polar angle wrapped into `[minPolarAngle,
maxPolarAngle]` by that `updateCamera(true)`* — in particular the default
snapshot itself whenever it lies inside those bands — the orbit target
equals the default target, dragging and spinning are off, and both
velocities are zero.  (The clamp is forced on the claim: the source never
clamps the default snapshot, see the counterexample.) -/
theorem claim_C10_resetView_clamped (s : ViewerFO) :
    resetViewFO s true = resetViewFO s false ∧
    (∀ b : Bool,
      (resetViewFO s b).spherical = resetSpherical s ∧
      (resetViewFO s b).sphericalGoal = resetSpherical s ∧
      (resetViewFO s b).orbitTarget = s.defaultTarget ∧
      (resetViewFO s b).pointer.isDragging = false ∧
      (resetViewFO s b).isSpinning = false ∧
      (resetViewFO s b).velocityTheta = 0 ∧
      (resetViewFO s b).velocityPhi = 0) ∧
    (s.defaultSpherical.radius ∈ Set.Icc minDistance maxDistance →
      s.defaultSpherical.phi ∈ Set.Icc minPolarAngle maxPolarAngle →
      ∀ b : Bool, (resetViewFO s b).spherical = s.defaultSpherical) := by
  refine ⟨rfl, fun b => resetViewFO_fields s b, ?_⟩
  intro hr hp b
  rw [(resetViewFO_fields s b).1]
  simp only [resetSpherical]
  rw [mclamp_id _ _ _ hr.1 hr.2, wrapPoles_id _ hp.1 hp.2]

/-- C10 witness: `baseFO`'s in-band default is restored exactly, and both
`immediate` values agree. -/
theorem claim_C10_resetView_clamped_witness :
    baseFO.defaultSpherical.radius ∈ Set.Icc minDistance maxDistance ∧
    baseFO.defaultSpherical.phi ∈ Set.Icc minPolarAngle maxPolarAngle ∧
    resetViewFO baseFO true = resetViewFO baseFO false ∧
    (resetViewFO baseFO true).spherical = baseFO.defaultSpherical := by
  have h1 : baseFO.defaultSpherical.radius ∈
      Set.Icc minDistance maxDistance := by
    unfold baseFO minDistance maxDistance
    norm_num
  have h2 : baseFO.defaultSpherical.phi ∈
      Set.Icc minPolarAngle maxPolarAngle := by
    unfold baseFO minPolarAngle maxPolarAngle
    constructor <;> simp <;> linarith [Real.pi_gt_three]
  exact ⟨h1, h2, (claim_C10_resetView_clamped baseFO).1,
    (claim_C10_resetView_clamped baseFO).2.2 h1 h2 true⟩

end

/-! ## Asset lifecycle: the load token (`loadFromUrl`, `loadPlyFile`,
`loadObjFile`)

A discrete model over renderable ids (natural numbers).  `scene` is the
list of model renderables currently added to the scene, `model` the
`this.model` slot, `fitted` the renderables for which `fitViewToModel`
ran.  A load's asynchronous completion is a separate function taking the
token captured at issue time, exactly as the JS closures capture it. -/

inductive LoadKind where
  | ply
  | obj
deriving DecidableEq

structure LoaderState where
  currentLoadToken : Nat
  scene : List Nat
  model : Option Nat
  fitted : List Nat
deriving DecidableEq

/-- `disposeModel`: if a model is set, remove it from the scene and clear
the slot. -/
def disposeModel (s : LoaderState) : LoaderState :=
  match s.model with
  | none => s
  | some m => { s with scene := s.scene.filter (fun i => i ≠ m), model := none }

/-- `disposeStaleMeshes`: remove every model renderable that is not the
current `model` from the scene. -/
def disposeStaleMeshes (s : LoaderState) : LoaderState :=
  { s with scene := s.scene.filter (fun i => some i = s.model) }

/-- The synchronous body of `loadPlyFile`: the `SplatMesh` is constructed
and added to the scene immediately; only `initialized.then` is deferred. -/
def loadPlyFileStart (s : LoaderState) (id : Nat) : LoaderState :=
  { s with scene := s.scene ++ [id], model := some id }

/-- `loadFromUrl` (and, for blobs, `loadFile`): increment the load token,
dispose the current model and stray renderables, then dispatch by
extension — `.ply` adds its renderable synchronously, `.obj` defers all
scene mutation to its fetch resolution.  Returns the state and the token
captured for the load. -/
def loadFromUrl (s : LoaderState) (kind : LoadKind) (id : Nat) :
    LoaderState × Nat :=
  let loadToken := s.currentLoadToken + 1
  let s1 := { s with currentLoadToken := loadToken }
  let s2 := disposeStaleMeshes (disposeModel s1)
  match kind with
  | LoadKind.ply => (loadPlyFileStart s2 id, loadToken)
  | LoadKind.obj => (s2, loadToken)

/-- The `initialized.then` callback of `loadPlyFile`: fit the view only if
the model slot still holds this renderable and the captured token is still
current. -/
def plyInitializedThen (s : LoaderState) (id loadToken : Nat) : LoaderState :=
  if s.model = some id ∧ loadToken = s.currentLoadToken
  then { s with fitted := s.fitted ++ [id] } else s

/-- The post-`await` remainder of `loadObjFile` (and `loadObjWithMtl`): the
parsed model is added to the scene and installed as `this.model`
**unconditionally**; the captured token is compared against the current
one only to guard `fitViewToModel`. -/
def objFetchResolved (s : LoaderState) (id loadToken : Nat) : LoaderState :=
  let s1 := { s with scene := s.scene ++ [id], model := some id }
  if s1.model = some id ∧ loadToken = s1.currentLoadToken
  then { s1 with fitted := s1.fitted ++ [id] } else s1

/-- The stale-load race: `L1 = loadFromUrl(obj, id 1)` whose fetch is slow,
then `L2 = loadFromUrl(ply, id 2)`, then L1's fetch resolves. -/
def staleObjRun : LoaderState :=
  let r1 := loadFromUrl ⟨0, [], none, []⟩ LoadKind.obj 1
  let r2 := loadFromUrl r1.1 LoadKind.ply 2
  objFetchResolved r2.1 1 r1.2

/-- C1 (code bug).  Stale-load rejection fails on the OBJ path: after
issuing load L1 (`.obj`, renderable 1) and then L2 (`.ply`, renderable 2)
before L1 resolves, L1's arrival adds renderable 1 to the scene and
overwrites the model slot with it — the captured-token comparison in
`loadObjFile` runs only after `scene.add`/`this.model = newModel` and
guards nothing but `fitViewToModel` (which is indeed skipped).  The scene
ends up `[2, 1]`, containing L1's renderable, where the claim and the spec
require it to contain only L2's. -/
theorem claim_C1_stale_obj_load_pollutes_scene :
    staleObjRun.scene = [2, 1] ∧ staleObjRun.model = some 1 ∧
    1 ∈ staleObjRun.scene ∧ staleObjRun.fitted = [] := by
  decide
